import Mathlib

/-!
Shallow embedding of the ralfresh persistent-mode state machine
(`src/hooks/ralfresh/state.ts`, `loop.ts`, `index.ts`, `types.ts`).

The filesystem is modelled by an explicit environment `Env` holding the
content of `.omc/state/ralfresh-state.json` (as a JSON value), a flag for
the presence of dependent sub-mode state, the external notepad-wisdom
store, and a trace of side effects.  Disk writes are modelled on the
success path (the single-writer, no-fault filesystem the code assumes);
a JavaScript `TypeError` escaping a function is modelled by `Except.error`.
JS string `.length`/`.slice` are modelled on Unicode scalar values
(`String.length` / `List.take` on `String.toList`); the programs at issue
only ever compare lengths and cut prefixes, where the two agree on the
claims' inputs.
-/

/-- `RalfreshPhaseState` from types.ts: status plus optional timestamps.
`status` is a string at runtime ('pending' | 'in_progress' | 'complete' | 'failed'). -/
structure RalfreshPhaseState where
  status : String
  startedAt : Option String := none
  completedAt : Option String := none
deriving Repr, DecidableEq

/-- `RalfreshState` from types.ts, as the runtime value flowing through the
code.  `phase` is a `String` because the read-side validator only checks
`typeof state.phase === 'string'`, so after a read the phase may be any
string.  `phases` is an association list mirroring a JS object (unique keys
in every document the program itself writes).  `completedAt : Option String`
covers both `null` and an absent key.  `linkedModes` is a JS object of
booleans. -/
structure RalfreshState where
  active : Bool
  iteration : Int
  maxIterations : Int
  phase : String
  prompt : String
  startedAt : String
  completedAt : Option String
  sessionId : Option String
  notepadName : String
  phases : List (String × RalfreshPhaseState)
  learnings : List String
  issues : List String
  planPath : Option String := none
  linkedModes : List (String × Bool) := []
deriving Repr, DecidableEq

/-- `RalfreshConfig` from types.ts (all fields optional). -/
structure RalfreshConfig where
  maxIterations : Option Int := none
  swarmAgents : Option Int := none
  skipPlanning : Option Bool := none
deriving Repr, DecidableEq

/-- Metadata record of `RalfreshLoopResult`. -/
structure LoopMetadata where
  iteration : Option Int := none
  maxIterations : Option Int := none
deriving Repr, DecidableEq

/-- `RalfreshLoopResult` from types.ts. -/
structure RalfreshLoopResult where
  shouldBlock : Bool
  message : String
  phase : Option String := none
  metadata : Option LoopMetadata := none
deriving Repr, DecidableEq

/-- Wisdom document returned by the external notepad-wisdom collaborator
(`readPlanWisdom`). -/
structure PlanWisdom where
  learnings : List String := []
  decisions : List String := []
  issues : List String := []
  problems : List String := []
deriving Repr, DecidableEq

/-- JSON values, as produced by `JSON.parse` / consumed by `JSON.stringify`.
Numbers in this program are integers. -/
inductive Json where
  | null
  | bool (b : Bool)
  | num (n : Int)
  | str (s : String)
  | arr (xs : List Json)
  | obj (fields : List (String × Json))
deriving Repr

/-- Side effects recorded by the model. -/
inductive Event where
  | writeState (s : RalfreshState)
  | clearState
  | clearSubModes (sessionId : Option String)
  | notepadInit (name : String)
  | notepadLearning (name text : String)
  | notepadIssue (name text : String)
deriving Repr

/-- The world the ralfresh functions act on: the state file (parsed JSON
document, `none` when the file does not exist), whether any sub-mode state
files exist, the wisdom store content, and a trace of side effects in
order. -/
structure Env where
  doc : Option Json
  subModes : Bool := true
  wisdom : Option PlanWisdom := none
  trace : List Event := []

/-- Constants from types.ts. -/
def MAX_LEARNINGS : Nat := 100

def MAX_ISSUES : Nat := 100

def MAX_ENTRY_LENGTH : Nat := 4096

def MAX_PROMPT_LENGTH : Nat := 32768

/-- Key lookup on a JSON object (`undefined` for a missing key or a
non-object).  Documents written by this program have unique keys. -/
def Json.get : Json → String → Option Json
  | .obj fields, key => lookupField fields key
  | _, _ => none
where
  lookupField : List (String × Json) → String → Option Json
    | [], _ => none
    | (k, v) :: rest, key => if k = key then some v else lookupField rest key

/-- `typeof x === 'object'`: true for objects, arrays and `null`
(and false for a missing key, whose typeof is 'undefined'). -/
def jsTypeofObject : Option Json → Bool
  | some (.obj _) => true
  | some (.arr _) => true
  | some .null => true
  | _ => false

/-- `typeof x === 'boolean'`. -/
def jsTypeofBoolean : Option Json → Bool
  | some (.bool _) => true
  | _ => false

/-- `typeof x === 'number'`. -/
def jsTypeofNumber : Option Json → Bool
  | some (.num _) => true
  | _ => false

/-- `typeof x === 'string'`. -/
def jsTypeofString : Option Json → Bool
  | some (.str _) => true
  | _ => false

/-- `Array.isArray(x)`. -/
def jsIsArray : Option Json → Bool
  | some (.arr _) => true
  | _ => false

/-- `isValidRalfreshState` from state.ts: the shape check run on every read.
It checks only the runtime `typeof` of each required field — no field
values, no element types, and no check at all on `completedAt`,
`sessionId`, `planPath` or `linkedModes`. -/
def isValidRalfreshState (j : Json) : Bool :=
  jsTypeofObject (some j) &&
  jsTypeofBoolean (j.get "active") &&
  jsTypeofNumber (j.get "iteration") &&
  jsTypeofNumber (j.get "maxIterations") &&
  jsTypeofString (j.get "phase") &&
  jsTypeofString (j.get "prompt") &&
  jsTypeofString (j.get "startedAt") &&
  jsTypeofString (j.get "notepadName") &&
  jsTypeofObject (j.get "phases") &&
  jsIsArray (j.get "learnings") &&
  jsIsArray (j.get "issues")

/-- `JSON.stringify` of a `RalfreshPhaseState`: keys in declaration order,
absent optional fields omitted (their value is `undefined` in JS). -/
def encodePhaseState (p : RalfreshPhaseState) : Json :=
  .obj ([("status", .str p.status)] ++
    (match p.startedAt with | some t => [("startedAt", Json.str t)] | none => []) ++
    (match p.completedAt with | some t => [("completedAt", Json.str t)] | none => []))

/-- `JSON.stringify` of the `phases` object. -/
def encodePhases (m : List (String × RalfreshPhaseState)) : Json :=
  .obj (m.map fun e => (e.1, encodePhaseState e.2))

/-- `JSON.stringify` of a string array. -/
def encodeStrList (l : List String) : Json :=
  .arr (l.map .str)

/-- `JSON.stringify` of the `linkedModes` object of booleans. -/
def encodeLinkedModes (m : List (String × Bool)) : Json :=
  .obj (m.map fun e => (e.1, .bool e.2))

/-- `JSON.stringify(state)` (`writeRalfreshState`): the document written to
disk.  `completedAt : null` is kept; `undefined`-valued optionals
(`sessionId`, `planPath`) are omitted. -/
def encodeState (s : RalfreshState) : Json :=
  .obj ([("active", .bool s.active),
    ("iteration", .num s.iteration),
    ("maxIterations", .num s.maxIterations),
    ("phase", .str s.phase),
    ("prompt", .str s.prompt),
    ("startedAt", .str s.startedAt),
    ("completedAt", match s.completedAt with | some t => Json.str t | none => Json.null)] ++
    (match s.sessionId with | some t => [("sessionId", Json.str t)] | none => []) ++
    [("notepadName", .str s.notepadName),
     ("phases", encodePhases s.phases),
     ("learnings", encodeStrList s.learnings),
     ("issues", encodeStrList s.issues)] ++
    (match s.planPath with | some t => [("planPath", Json.str t)] | none => []) ++
    [("linkedModes", encodeLinkedModes s.linkedModes)])

/-- Read one phase record out of the parsed document. -/
def decodePhaseState (j : Json) : Option RalfreshPhaseState :=
  match j.get "status" with
  | some (.str st) =>
      some { status := st,
             startedAt := match j.get "startedAt" with | some (.str t) => some t | _ => none,
             completedAt := match j.get "completedAt" with | some (.str t) => some t | _ => none }
  | _ => none

/-- Read the `phases` object out of the parsed document. -/
def decodePhases : Json → Option (List (String × RalfreshPhaseState))
  | .obj fields => decodeFields fields
  | _ => none
where
  decodeFields : List (String × Json) → Option (List (String × RalfreshPhaseState))
    | [] => some []
    | (k, v) :: rest =>
      match decodePhaseState v, decodeFields rest with
      | some p, some ps => some ((k, p) :: ps)
      | _, _ => none

/-- Read a string array out of the parsed document. -/
def decodeStrList : Json → Option (List String)
  | .arr xs => decodeElems xs
  | _ => none
where
  decodeElems : List Json → Option (List String)
    | [] => some []
    | .str s :: rest =>
      match decodeElems rest with
      | some l => some (s :: l)
      | none => none
    | _ => none

/-- Read `linkedModes` (unchecked by the validator; lenient). -/
def decodeLinkedModes : Option Json → List (String × Bool)
  | some (.obj fields) =>
      fields.filterMap fun e =>
        match e.2 with
        | .bool b => some (e.1, b)
        | _ => none
  | _ => []

/-- Reassemble a `RalfreshState` from a parsed document.  The source
returns the parsed object itself; this model re-reads the schema fields
from it.  A document whose required fields pass the `typeof` checks but
whose nested contents fall outside the schema (e.g. a number inside
`learnings`) is not representable in `RalfreshState` and reads as `none`
here — no claim quantifies over such documents. -/
def decodeState (j : Json) : Option RalfreshState :=
  match j.get "active", j.get "iteration", j.get "maxIterations", j.get "phase",
        j.get "prompt", j.get "startedAt", j.get "notepadName" with
  | some (.bool a), some (.num it), some (.num mx), some (.str ph),
    some (.str pr), some (.str st), some (.str np) =>
    match (j.get "phases").bind decodePhases, (j.get "learnings").bind decodeStrList,
          (j.get "issues").bind decodeStrList with
    | some phs, some ls, some iss =>
      some { active := a, iteration := it, maxIterations := mx, phase := ph, prompt := pr,
             startedAt := st,
             completedAt := match j.get "completedAt" with | some (.str t) => some t | _ => none,
             sessionId := match j.get "sessionId" with | some (.str t) => some t | _ => none,
             notepadName := np, phases := phs, learnings := ls, issues := iss,
             planPath := match j.get "planPath" with | some (.str t) => some t | _ => none,
             linkedModes := decodeLinkedModes (j.get "linkedModes") }
    | _, _, _ => none
  | _, _, _, _, _, _, _ => none

/-- `readRalfreshState` from state.ts: missing file reads as `null`;
otherwise parse, run `isValidRalfreshState`, and return the document. -/
def readRalfreshState (env : Env) : Option RalfreshState :=
  match env.doc with
  | none => none
  | some j => if isValidRalfreshState j then decodeState j else none

/-- `writeRalfreshState` from state.ts: atomic temp-file-plus-rename write
of `JSON.stringify(state)`; modelled on the success path. -/
def writeRalfreshState (env : Env) (state : RalfreshState) : Bool × Env :=
  (true, { env with doc := some (encodeState state),
                    trace := env.trace ++ [Event.writeState state] })

/-- `clearRalfreshState` from state.ts: delete the state file. -/
def clearRalfreshState (env : Env) : Bool × Env :=
  (true, { env with doc := none, trace := env.trace ++ [Event.clearState] })

/-- `isRalfreshActive` from state.ts: `state?.active === true`. -/
def isRalfreshActive (env : Env) : Bool :=
  match readRalfreshState env with
  | some s => s.active
  | none => false

/-- `clearAllRalfreshSubModes` from state.ts: best-effort deletion of the
fixed local sub-mode files and the session-gated global ones; modelled on
the success path as removing all sub-mode state and recording the call. -/
def clearAllRalfreshSubModes (env : Env) (sessionId : Option String) : Bool × Env :=
  (true, { env with subModes := false,
                    trace := env.trace ++ [Event.clearSubModes sessionId] })

/-- An environment whose state file holds exactly the document this
program writes for `s`. -/
def mkEnv (s : RalfreshState) : Env :=
  { doc := some (encodeState s) }

/-- `arr.slice(-n)` on JS arrays (keep the most recent `n` entries). -/
def lastNList {α : Type} (n : Nat) (xs : List α) : List α :=
  xs.drop (xs.length - n)

/-- The external notepad-wisdom collaborator calls, recorded as events:
`initPlanNotepad`. -/
def initPlanNotepad (env : Env) (name : String) : Env :=
  { env with trace := env.trace ++ [Event.notepadInit name] }

/-- notepad-wisdom `addLearning` (best-effort mirror). -/
def addNotepadLearning (env : Env) (name text : String) : Env :=
  { env with trace := env.trace ++ [Event.notepadLearning name text] }

/-- notepad-wisdom `addIssue` (best-effort mirror). -/
def addNotepadIssue (env : Env) (name text : String) : Env :=
  { env with trace := env.trace ++ [Event.notepadIssue name text] }

/-- `VALID_TRANSITIONS` from loop.ts.  The record is keyed by the six
`RalfreshPhase` strings; indexing it with any other string yields
`undefined` in JS, here `none`. -/
def VALID_TRANSITIONS : String → Option (List String)
  | "planning" => some ["execution"]
  | "execution" => some ["review"]
  | "review" => some ["assess"]
  | "assess" => some ["planning", "complete", "failed"]
  | "complete" => some []
  | "failed" => some []
  | _ => none

/-- `state.phases[key]` on the phases object. -/
def lookupPhase : List (String × RalfreshPhaseState) → String → Option RalfreshPhaseState
  | [], _ => none
  | (k, v) :: rest, key => if k = key then some v else lookupPhase rest key

/-- In-place update `state.phases[key] = v` on the phases object. -/
def setPhase (m : List (String × RalfreshPhaseState)) (key : String)
    (v : RalfreshPhaseState) : List (String × RalfreshPhaseState) :=
  m.map fun (e : String × RalfreshPhaseState) => if e.1 = key then (e.1, v) else e

/-- The in-memory part of `transitionRalfreshPhase` after the active-state
guard: validate the edge, complete the current phase, start the new one,
handle terminal targets.  `.error ()` models the `TypeError` thrown when
`VALID_TRANSITIONS[state.phase]` or `state.phases[...]` is `undefined`. -/
def transitionCore (state : RalfreshState) (newPhase : String) (now : String) :
    Except Unit (Option RalfreshState) :=
  match VALID_TRANSITIONS state.phase with
  | none => .error ()
  | some validNextPhases =>
    if validNextPhases.contains newPhase = false then .ok none
    else
      match lookupPhase state.phases state.phase with
      | none => .error ()
      | some cur =>
        let phases1 := setPhase state.phases state.phase
          { cur with status := "complete", completedAt := some now }
        match lookupPhase phases1 newPhase with
        | none => .error ()
        | some tgt =>
          let phases2 := setPhase phases1 newPhase
            { tgt with status := "in_progress", startedAt := some now }
          let isTerminal := newPhase = "complete" || newPhase = "failed"
          .ok (some { state with
            phase := newPhase,
            phases := phases2,
            active := if isTerminal then false else state.active,
            completedAt := if isTerminal then some now else state.completedAt })

/-- `transitionRalfreshPhase` from loop.ts.  `now` is the
`new Date().toISOString()` value taken once inside the call. -/
def transitionRalfreshPhase (env : Env) (newPhase : String) (now : String) :
    Except Unit (Option RalfreshState) × Env :=
  match readRalfreshState env with
  | none => (.ok none, env)
  | some state =>
    if state.active = false then (.ok none, env)
    else
      match transitionCore state newPhase now with
      | .error () => (.error (), env)
      | .ok none => (.ok none, env)
      | .ok (some state1) =>
        let (ok, env1) := writeRalfreshState env state1
        if ok then (.ok (some state1), env1) else (.ok none, env1)

/-- The in-memory part of `incrementRalfreshIteration` below the ceiling:
bump the counter, reset every phase record to `{status: 'pending'}`, then
start planning.  `none` models the `TypeError` thrown when
`state.phases.planning` is `undefined`. -/
def incrementCore (state : RalfreshState) (now : String) : Option RalfreshState :=
  let state1 := { state with
    iteration := state.iteration + 1,
    phases := state.phases.map fun (e : String × RalfreshPhaseState) =>
      (e.1, ({ status := "pending" } : RalfreshPhaseState)) }
  match lookupPhase state1.phases "planning" with
  | none => none
  | some ps =>
    some { state1 with
      phase := "planning",
      phases := setPhase state1.phases "planning"
        { ps with status := "in_progress", startedAt := some now } }

/-- `incrementRalfreshIteration` from loop.ts: at or above the ceiling it
performs the `failed` transition instead; below it, it resets phases,
purges sub-modes and persists. -/
def incrementRalfreshIteration (env : Env) (sessionId : Option String) (now : String) :
    Except Unit (Option RalfreshState) × Env :=
  match readRalfreshState env with
  | none => (.ok none, env)
  | some state =>
    if state.active = false then (.ok none, env)
    else if state.maxIterations ≤ state.iteration then
      transitionRalfreshPhase env "failed" now
    else
      match incrementCore state now with
      | none => (.error (), env)
      | some state1 =>
        let env1 := (clearAllRalfreshSubModes env sessionId).2
        let (ok, env2) := writeRalfreshState env1 state1
        if ok then (.ok (some state1), env2) else (.ok none, env2)

/-- The truncation applied by `addRalfreshLearning` / `addRalfreshIssue`:
entries longer than `MAX_ENTRY_LENGTH` become
`text.slice(0, MAX_ENTRY_LENGTH - 3) + '...'`. -/
def truncateEntry (text : String) : String :=
  if MAX_ENTRY_LENGTH < text.length then
    ((text.toList.take (MAX_ENTRY_LENGTH - 3)).asString) ++ "..."
  else text

/-- `addRalfreshLearning` from loop.ts. -/
def addRalfreshLearning (env : Env) (learning : String) : Bool × Env :=
  match readRalfreshState env with
  | none => (false, env)
  | some state =>
    let truncatedLearning := truncateEntry learning
    let learnings1 := state.learnings ++ [truncatedLearning]
    let learnings2 :=
      if MAX_LEARNINGS < learnings1.length then lastNList MAX_LEARNINGS learnings1
      else learnings1
    let env1 := addNotepadLearning env state.notepadName truncatedLearning
    writeRalfreshState env1 { state with learnings := learnings2 }

/-- `addRalfreshIssue` from loop.ts. -/
def addRalfreshIssue (env : Env) (issue : String) : Bool × Env :=
  match readRalfreshState env with
  | none => (false, env)
  | some state =>
    let truncatedIssue := truncateEntry issue
    let issues1 := state.issues ++ [truncatedIssue]
    let issues2 :=
      if MAX_ISSUES < issues1.length then lastNList MAX_ISSUES issues1
      else issues1
    let env1 := addNotepadIssue env state.notepadName truncatedIssue
    writeRalfreshState env1 { state with issues := issues2 }

/-- `createInitialPhases` from index.ts: all six phases pending. -/
def createInitialPhases : List (String × RalfreshPhaseState) :=
  [("planning", { status := "pending" }),
   ("execution", { status := "pending" }),
   ("review", { status := "pending" }),
   ("assess", { status := "pending" }),
   ("complete", { status := "pending" }),
   ("failed", { status := "pending" })]

/-- `initRalfresh` from index.ts.  `canStartAllowed` is the answer of the
external mutual-exclusion registry (`canStartMode('ralfresh', dir).allowed`);
`now` is `new Date().toISOString()`.  Marking the first phase in-progress
replaces its freshly created `{status: 'pending'}` record by
`{status: 'in_progress', startedAt: now}`, exactly as the two JS field
assignments do. -/
def initRalfresh (env : Env) (prompt : String) (sessionId : Option String)
    (config : Option RalfreshConfig) (canStartAllowed : Bool) (now : String) :
    Option RalfreshState × Env :=
  if MAX_PROMPT_LENGTH < prompt.length then (none, env)
  else if canStartAllowed = false then (none, env)
  else
    let timestamp :=
      ((now.toList.map fun c => if c = ':' || c = '.' then '-' else c).take 19).asString
    let notepadName := "ralfresh-" ++ timestamp
    let env1 := initPlanNotepad env notepadName
    let phase0 := if (config.bind fun c => c.skipPlanning).getD false
      then "execution" else "planning"
    let state0 : RalfreshState := {
      active := true,
      iteration := 1,
      maxIterations := (config.bind fun c => c.maxIterations).getD 5,
      phase := phase0,
      prompt := prompt,
      startedAt := now,
      completedAt := none,
      sessionId := sessionId,
      notepadName := notepadName,
      phases := createInitialPhases,
      learnings := [],
      issues := [],
      linkedModes := [] }
    let state := { state0 with
      phases := setPhase state0.phases phase0 { status := "in_progress", startedAt := some now } }
    let (ok, env2) := writeRalfreshState env1 state
    if ok then (some state, env2) else (none, env2)

/-- `getRalfreshContext` from loop.ts: wisdom sections plus the status
block, joined by blank lines. -/
def getRalfreshContext (env : Env) : String :=
  match readRalfreshState env with
  | none => ""
  | some state =>
    let bullets := fun (l : List String) =>
      String.intercalate "\n" (l.map fun x => "- " ++ x)
    let parts : List String :=
      (match env.wisdom with
       | some wisdom =>
         (if 0 < wisdom.learnings.length
            then ["## Previous Learnings\n" ++ bullets wisdom.learnings] else []) ++
         (if 0 < wisdom.decisions.length
            then ["## Decisions Made\n" ++ bullets wisdom.decisions] else []) ++
         (if 0 < wisdom.issues.length
            then ["## Known Issues\n" ++ bullets wisdom.issues] else []) ++
         (if 0 < wisdom.problems.length
            then ["## Problems Encountered\n" ++ bullets wisdom.problems] else [])
       | none => []) ++
      ["\n## Ralfresh Status\n- Iteration: " ++ toString state.iteration ++ "/" ++
        toString state.maxIterations ++ "\n- Phase: " ++ state.phase ++
        "\n- Original Task: " ++ state.prompt]
    String.intercalate "\n\n" parts

/-- `getRalfreshContinuationPrompt` from loop.ts: one fixed template per
non-terminal phase (empty for any other phase string). -/
def getRalfreshContinuationPrompt (state : RalfreshState) : String :=
  let iterInfo := "[Iteration " ++ toString state.iteration ++ "/" ++
    toString state.maxIterations ++ "]"
  if state.phase = "planning" then
    iterInfo ++ " **RALFRESH PLANNING PHASE**\n\nYou are in the ralfresh planning phase. Use the /oh-my-claudecode:ralplan skill to achieve planning consensus between Planner, Architect, and Critic.\n\nOriginal task: " ++ state.prompt ++ "\n\nDO NOT STOP until planning consensus is reached. When approved, transition to execution phase."
  else if state.phase = "execution" then
    iterInfo ++ " **RALFRESH EXECUTION PHASE**\n\nYou are in the ralfresh execution phase. Use /oh-my-claudecode:swarm or /oh-my-claudecode:ultrawork to execute the approved plan with maximum parallelism.\n\nOriginal task: " ++ state.prompt ++ "\n\nDO NOT STOP until all planned work is implemented. When complete, transition to review phase."
  else if state.phase = "review" then
    iterInfo ++ " **RALFRESH REVIEW PHASE**\n\nYou are in the ralfresh review phase. Spawn the Architect agent to verify the implementation meets all requirements.\n\nOriginal task: " ++ state.prompt ++ "\n\nThe Architect MUST approve before proceeding. If rejected, capture issues and transition to assess phase."
  else if state.phase = "assess" then
    iterInfo ++ " **RALFRESH ASSESSMENT PHASE**\n\nThe Architect has reviewed the implementation. Based on the review:\n\n- If APPROVED: Transition to \x27complete\x27 phase. Task is done.\n- If REJECTED with iterations remaining: Capture learnings, increment iteration, start fresh planning with wisdom.\n- If REJECTED and max iterations reached: Transition to \x27failed\x27 phase. Report partial completion.\n\nOriginal task: " ++ state.prompt
  else ""

/-- `processRalfreshLoop` from loop.ts: the stop-event entry point. -/
def processRalfreshLoop (env : Env) (sessionId : Option String) :
    Option RalfreshLoopResult × Env :=
  match readRalfreshState env with
  | none => (none, env)
  | some state =>
    if state.active = false then (none, env)
    else if state.phase = "complete" || state.phase = "failed" then
      let env1 := (clearRalfreshState env).2
      let env2 := (clearAllRalfreshSubModes env1 sessionId).2
      (some { shouldBlock := false,
              message :=
                if state.phase = "complete" then
                  "✅ Ralfresh completed successfully after " ++
                    toString state.iteration ++ " iteration(s)."
                else
                  "⚠️ Ralfresh failed after " ++ toString state.iteration ++
                    " iteration(s). Max iterations reached.",
              phase := some state.phase,
              metadata := some { iteration := some state.iteration,
                                 maxIterations := some state.maxIterations } },
       env2)
    else
      let continuationPrompt := getRalfreshContinuationPrompt state
      let context := getRalfreshContext env
      (some { shouldBlock := true,
              message := "<ralfresh-continuation>\n\n" ++ continuationPrompt ++ "\n\n" ++
                (if context = "" then ""
                 else "<ralfresh-wisdom>\n" ++ context ++ "\n</ralfresh-wisdom>") ++
                "\n\n</ralfresh-continuation>",
              phase := some state.phase,
              metadata := some { iteration := some state.iteration,
                                 maxIterations := some state.maxIterations } },
       env)

/-! ### Round-trip lemmas: the document written for a state reads back as
that state. -/

lemma decodeElems_map_str (l : List String) :
    decodeStrList.decodeElems (l.map Json.str) = some l := by
  induction l with
  | nil => rfl
  | cons h t ih => simp [decodeStrList.decodeElems, ih]

lemma decodeStrList_encode (l : List String) :
    decodeStrList (encodeStrList l) = some l := by
  simp [decodeStrList, encodeStrList, decodeElems_map_str]

lemma decodePhaseState_encode (p : RalfreshPhaseState) :
    decodePhaseState (encodePhaseState p) = some p := by
  obtain ⟨st, sa, ca⟩ := p
  cases sa <;> cases ca <;>
    simp [encodePhaseState, decodePhaseState, Json.get, Json.get.lookupField]

lemma decodeFields_encode (m : List (String × RalfreshPhaseState)) :
    decodePhases.decodeFields (m.map fun e => (e.1, encodePhaseState e.2)) = some m := by
  induction m with
  | nil => rfl
  | cons e t ih =>
    obtain ⟨k, v⟩ := e
    simp [decodePhases.decodeFields, decodePhaseState_encode, ih]

lemma decodePhases_encode (m : List (String × RalfreshPhaseState)) :
    decodePhases (encodePhases m) = some m := by
  simp [decodePhases, encodePhases, decodeFields_encode]

lemma decodeLinkedModes_encode (lm : List (String × Bool)) :
    decodeLinkedModes (some (encodeLinkedModes lm)) = lm := by
  induction lm with
  | nil => rfl
  | cons e t ih =>
    obtain ⟨k, b⟩ := e
    simpa [decodeLinkedModes, encodeLinkedModes] using
      congrArg (List.cons (k, b)) ih

lemma decodeState_encode (s : RalfreshState) :
    decodeState (encodeState s) = some s := by
  obtain ⟨a, it, mx, ph, pr, st, ca, sid, np, phs, ls, iss, pp, lm⟩ := s
  cases sid <;> cases ca <;> cases pp <;>
    simp [encodeState, decodeState, Json.get, Json.get.lookupField,
      decodePhases_encode, decodeStrList_encode, decodeLinkedModes_encode]

lemma isValid_encode (s : RalfreshState) :
    isValidRalfreshState (encodeState s) = true := by
  obtain ⟨a, it, mx, ph, pr, st, ca, sid, np, phs, ls, iss, pp, lm⟩ := s
  cases sid <;> cases pp <;>
    simp [encodeState, isValidRalfreshState, Json.get, Json.get.lookupField,
      jsTypeofObject, jsTypeofBoolean, jsTypeofNumber, jsTypeofString, jsIsArray,
      encodePhases, encodeStrList]

lemma read_write (env : Env) (s : RalfreshState) :
    readRalfreshState (writeRalfreshState env s).2 = some s := by
  simp [readRalfreshState, writeRalfreshState, isValid_encode, decodeState_encode]

lemma read_mkEnv (s : RalfreshState) : readRalfreshState (mkEnv s) = some s := by
  simp [readRalfreshState, mkEnv, isValid_encode, decodeState_encode]

/-! ### Claim theorems -/

/-- The six phase names of the graph (statement-level reification of the
keys of `VALID_TRANSITIONS`). -/
def ralfreshPhases : List String :=
  ["planning", "execution", "review", "assess", "complete", "failed"]

/-- The edge set of the phase graph (statement-level reification of
`VALID_TRANSITIONS`). -/
def phaseEdges : List (String × String) :=
  [("planning", "execution"), ("execution", "review"), ("review", "assess"),
   ("assess", "planning"), ("assess", "complete"), ("assess", "failed")]

/-- A concrete active instance in the planning phase, used by witnesses. -/
def sampleActiveState : RalfreshState := {
  active := true,
  iteration := 1,
  maxIterations := 5,
  phase := "planning",
  prompt := "build a feature",
  startedAt := "2025-01-01T00:00:00.000Z",
  completedAt := none,
  sessionId := some "session-1",
  notepadName := "ralfresh-2025-01-01T00-00-00",
  phases :=
    [("planning", { status := "in_progress", startedAt := some "2025-01-01T00:00:00.000Z" }),
     ("execution", { status := "pending" }),
     ("review", { status := "pending" }),
     ("assess", { status := "pending" }),
     ("complete", { status := "pending" }),
     ("failed", { status := "pending" })],
  learnings := [],
  issues := [] }

/-- C6: writing any schema-conforming instance with `writeRalfreshState`
and reading it back with `readRalfreshState` yields the written value,
field for field. -/
theorem ralfresh_write_read_roundtrip (env : Env) (s : RalfreshState) :
    readRalfreshState (writeRalfreshState env s).2 = some s :=
  read_write env s

/-- C1: for every persisted active instance with phase `p` and every
requested target `q` among the six phases such that `(p, q)` is not an
edge of the phase graph (in particular any `q` when `p` is `complete` or
`failed`), `transitionRalfreshPhase` returns rejection (`null`) and the
environment — the stored document included — is unchanged. -/
theorem transition_rejects_non_edges (env : Env) (s : RalfreshState) (q now : String)
    (hread : readRalfreshState env = some s) (hact : s.active = true)
    (hp : s.phase ∈ ralfreshPhases) (hq : q ∈ ralfreshPhases)
    (hne : (s.phase, q) ∉ phaseEdges) :
    transitionRalfreshPhase env q now = (.ok none, env) := by
  simp only [ralfreshPhases, List.mem_cons, List.not_mem_nil, or_false] at hp hq
  rcases hp with hp | hp | hp | hp | hp | hp <;>
    rcases hq with hq | hq | hq | hq | hq | hq <;>
    first
    | (exfalso; apply hne; rw [hp, hq]; decide)
    | simp [transitionRalfreshPhase, hread, hact, transitionCore, hp, hq, VALID_TRANSITIONS]

/-- Witness for C1 at a concrete input: an active planning-phase instance
rejects the non-edge request `planning → review` and leaves the
environment untouched. -/
theorem transition_rejects_non_edges_witness :
    transitionRalfreshPhase (mkEnv sampleActiveState) "review" "T" =
      (.ok none, mkEnv sampleActiveState) :=
  transition_rejects_non_edges (mkEnv sampleActiveState) sampleActiveState "review" "T"
    (read_mkEnv sampleActiveState) rfl (by decide) (by decide) (by decide)

/-- A persisted document whose `phase` is a string outside the six-phase
set while every required field is well-typed. -/
def bogusPhaseState : RalfreshState := { sampleActiveState with phase := "bogus" }

/-- C10: the read-side validator checks only runtime types, so a document
with `phase = "bogus"` (all other required fields well-typed, `active =
true`) is accepted by `isValidRalfreshState` and returned by
`readRalfreshState` as a valid instance; on that instance the transition
table lookup is undefined and `transitionRalfreshPhase` throws
(`.error`) instead of returning a rejection. -/
theorem validator_accepts_bogus_phase_and_transition_throws :
    isValidRalfreshState (encodeState bogusPhaseState) = true ∧
    readRalfreshState (mkEnv bogusPhaseState) = some bogusPhaseState ∧
    bogusPhaseState.active = true ∧
    bogusPhaseState.phase ∉ ralfreshPhases ∧
    (transitionRalfreshPhase (mkEnv bogusPhaseState) "execution" "T").1 = .error () := by
  refine ⟨isValid_encode _, read_mkEnv _, rfl, by decide, ?_⟩
  simp [transitionRalfreshPhase, read_mkEnv, transitionCore, bogusPhaseState,
    sampleActiveState, VALID_TRANSITIONS]

/-! ### Inversion lemmas for the lifecycle operations -/

lemma transition_ok_some_inv {env : Env} {q now : String} {s' : RalfreshState}
    (h : (transitionRalfreshPhase env q now).1 = .ok (some s')) :
    ∃ s, readRalfreshState env = some s ∧ s.active = true ∧ s'.phase = q ∧
      s'.iteration = s.iteration ∧ s'.maxIterations = s.maxIterations ∧
      s'.prompt = s.prompt ∧ s'.sessionId = s.sessionId ∧
      s'.learnings = s.learnings ∧ s'.issues = s.issues ∧
      ((q = "complete" ∨ q = "failed") → s'.active = false ∧ s'.completedAt = some now) ∧
      (¬(q = "complete" ∨ q = "failed") → s'.active = s.active ∧ s'.completedAt = s.completedAt) := by
  unfold transitionRalfreshPhase at h
  rcases hr : readRalfreshState env with _ | s
  · rw [hr] at h; simp at h
  · rw [hr] at h
    dsimp only at h
    by_cases ha : s.active = false
    · rw [if_pos ha] at h; simp at h
    · rw [if_neg ha] at h
      unfold transitionCore at h
      refine ⟨s, rfl, by simpa using ha, ?_⟩
      split at h
      · simp at h
      · simp at h
      · rename_i x state1 heq
        simp only [writeRalfreshState] at h
        simp at h
        obtain rfl := h
        dsimp only at heq
        split at heq
        · simp at heq
        · split at heq
          · simp at heq
          · split at heq
            · simp at heq
            · split at heq
              · simp at heq
              · injection heq with heq1
                injection heq1 with heq2
                subst heq2
                refine ⟨rfl, rfl, rfl, rfl, rfl, rfl, rfl, ?_, ?_⟩
                · rintro (hq | hq) <;> subst hq <;> simp
                · intro hq
                  have h1 : (decide (q = "complete") || decide (q = "failed")) = false := by
                    simpa [not_or] using hq
                  simp [h1]

lemma increment_ok_some_inv {env : Env} {sid : Option String} {now : String}
    {s' : RalfreshState}
    (h : (incrementRalfreshIteration env sid now).1 = .ok (some s')) :
    ∃ s, readRalfreshState env = some s ∧ s.active = true ∧
      ((s.maxIterations ≤ s.iteration ∧ s'.phase = "failed" ∧ s'.active = false ∧
        s'.iteration = s.iteration ∧ s'.completedAt = some now) ∨
       (s.iteration < s.maxIterations ∧ s'.phase = "planning" ∧ s'.active = s.active ∧
        s'.iteration = s.iteration + 1)) := by
  unfold incrementRalfreshIteration at h
  rcases hr : readRalfreshState env with _ | s
  · rw [hr] at h; simp at h
  · rw [hr] at h
    dsimp only at h
    by_cases ha : s.active = false
    · rw [if_pos ha] at h; simp at h
    · rw [if_neg ha] at h
      by_cases hc : s.maxIterations ≤ s.iteration
      · rw [if_pos hc] at h
        obtain ⟨s2, hr2, ha2, hph, hit, hmx, hpr, hsid, hlrn, hiss, hterm, hnterm⟩ :=
          transition_ok_some_inv h
        rw [hr] at hr2
        injection hr2 with hr2e
        subst hr2e
        exact ⟨s, rfl, ha2,
          Or.inl ⟨hc, hph, (hterm (Or.inr rfl)).1, hit, (hterm (Or.inr rfl)).2⟩⟩
      · rw [if_neg hc] at h
        split at h
        · simp at h
        · rename_i state1 heq
          simp only [clearAllRalfreshSubModes, writeRalfreshState] at h
          simp at h
          obtain rfl := h
          unfold incrementCore at heq
          dsimp only at heq
          split at heq
          · simp at heq
          · injection heq with heqe
            subst heqe
            exact ⟨s, rfl, by simpa using ha, Or.inr ⟨not_le.mp hc, rfl, rfl, rfl⟩⟩

/-- A persisted active instance at the iteration ceiling whose current
phase is `planning`. -/
def atCeilingPlanningState : RalfreshState :=
  { sampleActiveState with iteration := 5, maxIterations := 5 }

/-- C2 counterexample: on an active instance in phase `planning` with
`iteration == maxIterations`, `incrementRalfreshIteration` does not yield
a `failed` state — the internal `failed` transition is rejected (no edge
`planning → failed`), the call returns `null` and the environment is
unchanged. -/
theorem increment_at_ceiling_counterexample :
    atCeilingPlanningState.active = true ∧
    atCeilingPlanningState.iteration = atCeilingPlanningState.maxIterations ∧
    incrementRalfreshIteration (mkEnv atCeilingPlanningState) none "T" =
      (.ok none, mkEnv atCeilingPlanningState) := by
  refine ⟨rfl, rfl, ?_⟩
  simp [incrementRalfreshIteration, read_mkEnv, atCeilingPlanningState, sampleActiveState,
    transitionRalfreshPhase, transitionCore, VALID_TRANSITIONS, read_mkEnv]

/-- C2 (amended): for every persisted active instance with
`iteration == maxIterations`, `incrementRalfreshIteration` never returns a
state with `iteration = maxIterations + 1`: any state it returns is the
`failed` transition's result (`phase = failed`, `active = false`,
iteration unchanged).  From phase `assess` it does return that failed
state; from every other phase of the graph the internal `failed`
transition is itself rejected and the call returns `null` with the stored
state unchanged. -/
theorem increment_at_ceiling (env : Env) (s : RalfreshState) (sid : Option String)
    (now : String)
    (hread : readRalfreshState env = some s) (hact : s.active = true)
    (hit : s.iteration = s.maxIterations) :
    (∀ s', (incrementRalfreshIteration env sid now).1 = .ok (some s') →
        s'.phase = "failed" ∧ s'.active = false ∧ s'.iteration = s.iteration) ∧
    (s.phase ∈ ralfreshPhases → s.phase ≠ "assess" →
        incrementRalfreshIteration env sid now = (.ok none, env)) ∧
    (s.phase = "assess" →
        ∀ cur, lookupPhase s.phases "assess" = some cur →
        ∀ tgt, lookupPhase (setPhase s.phases "assess"
            { cur with status := "complete", completedAt := some now }) "failed" = some tgt →
        ∃ s', (incrementRalfreshIteration env sid now).1 = .ok (some s') ∧
          s'.phase = "failed" ∧ s'.active = false ∧ s'.iteration = s.iteration) := by
  have hcle : s.maxIterations ≤ s.iteration := le_of_eq hit.symm
  refine ⟨?_, ?_, ?_⟩
  · intro s' h
    obtain ⟨s2, hr2, ha2, hcase⟩ := increment_ok_some_inv h
    rw [hread] at hr2
    injection hr2 with hr2e
    subst hr2e
    rcases hcase with ⟨_, hph, hactf, hitr, _⟩ | ⟨hlt, _, _, _⟩
    · exact ⟨hph, hactf, hitr⟩
    · exact absurd hit (by omega)
  · intro hp hne
    simp only [ralfreshPhases, List.mem_cons, List.not_mem_nil, or_false] at hp
    rcases hp with hp | hp | hp | hp | hp | hp
    all_goals first
      | exact absurd hp hne
      | simp [incrementRalfreshIteration, hread, hact, hcle, transitionRalfreshPhase,
          transitionCore, hp, VALID_TRANSITIONS]
  · intro hph cur hcur tgt htgt
    refine ⟨({ s with
        phase := "failed",
        phases := setPhase (setPhase s.phases "assess"
          { status := "complete", startedAt := cur.startedAt, completedAt := some now })
          "failed" { status := "in_progress", startedAt := some now,
                     completedAt := tgt.completedAt },
        active := false, completedAt := some now } : RalfreshState), ?_, rfl, rfl, rfl⟩
    simp [incrementRalfreshIteration, transitionRalfreshPhase, transitionCore, hread,
      hact, hcle, hph, hcur, htgt, VALID_TRANSITIONS, writeRalfreshState]

/-- A persisted active instance at the iteration ceiling in phase
`assess`, used by the C2 witness. -/
def atCeilingAssessState : RalfreshState :=
  { sampleActiveState with phase := "assess", iteration := 5, maxIterations := 5 }

/-- Witness for C2 (amended) at a concrete input: from phase `assess` at
the ceiling the call yields a `failed`, inactive state with the iteration
unchanged. -/
theorem increment_at_ceiling_witness :
    ∃ s', (incrementRalfreshIteration (mkEnv atCeilingAssessState) none "T").1 =
        .ok (some s') ∧
      s'.phase = "failed" ∧ s'.active = false ∧
      s'.iteration = atCeilingAssessState.iteration :=
  (increment_at_ceiling (mkEnv atCeilingAssessState) atCeilingAssessState none "T"
    (read_mkEnv atCeilingAssessState) rfl rfl).2.2 rfl
    { status := "pending" } rfl { status := "pending" } rfl

/-- An environment with no persisted state file. -/
def emptyEnv : Env := { doc := none }

/-- The terminal instance the lifecycle itself produces: phase `complete`
with `active = false` and `completedAt` set. -/
def completedDoneState : RalfreshState :=
  { sampleActiveState with active := false, phase := "complete",
                           completedAt := some "2025-01-01T01:00:00.000Z" }

/-- C3 counterexample: a persisted instance in the terminal phase
`complete` (with `active = false`, exactly as the `complete` transition
leaves it) makes `processRalfreshLoop` return `null` without deleting the
state file — not a `shouldBlock = false` decision with a summary, and not
"absent only when no active instance exists" in the claim's sense of
purging terminal instances. -/
theorem loop_terminal_counterexample :
    completedDoneState.phase = "complete" ∧
    processRalfreshLoop (mkEnv completedDoneState) none =
      (none, mkEnv completedDoneState) ∧
    (mkEnv completedDoneState).doc ≠ none := by
  refine ⟨rfl, ?_, by simp [mkEnv]⟩
  simp [processRalfreshLoop, read_mkEnv, completedDoneState, sampleActiveState]

/-- C3 (amended): the terminal-phase branch of `processRalfreshLoop`
applies only to persisted instances that are still `active` in a terminal
phase: for those it deletes the state file and the sub-mode state and
returns a termination-allowing decision (`shouldBlock = false`) with the
success-or-failure summary and iteration metadata.  For every environment
whose instance is absent or inactive — which includes every terminal
instance the lifecycle itself produces — it returns `null` and changes
nothing. -/
theorem loop_driver_terminal (env : Env) (s : RalfreshState) (sid : Option String)
    (hread : readRalfreshState env = some s) (hact : s.active = true)
    (hterm : s.phase = "complete" ∨ s.phase = "failed") :
    (∃ r env', processRalfreshLoop env sid = (some r, env') ∧
      r.shouldBlock = false ∧
      r.phase = some s.phase ∧
      r.metadata = some { iteration := some s.iteration,
                          maxIterations := some s.maxIterations } ∧
      r.message = (if s.phase = "complete" then
          "✅ Ralfresh completed successfully after " ++ toString s.iteration ++
            " iteration(s)."
        else
          "⚠️ Ralfresh failed after " ++ toString s.iteration ++
            " iteration(s). Max iterations reached.") ∧
      env'.doc = none ∧ env'.subModes = false) ∧
    (∀ env2 : Env, (∀ s2, readRalfreshState env2 = some s2 → s2.active = false) →
      processRalfreshLoop env2 sid = (none, env2)) := by
  constructor
  · rcases hterm with hph | hph
    · refine ⟨({
          shouldBlock := false,
          message := "✅ Ralfresh completed successfully after " ++
            toString s.iteration ++ " iteration(s).",
          phase := some s.phase,
          metadata := some { iteration := some s.iteration,
                             maxIterations := some s.maxIterations } } : RalfreshLoopResult),
        ({ env with
           doc := none, subModes := false,
           trace := env.trace ++ [Event.clearState, Event.clearSubModes sid] } : Env),
        ?_, rfl, rfl, rfl, by simp [hph], rfl, rfl⟩
      simp [processRalfreshLoop, hread, hact, hph, clearRalfreshState,
        clearAllRalfreshSubModes]
    · refine ⟨({
          shouldBlock := false,
          message := "⚠️ Ralfresh failed after " ++ toString s.iteration ++
            " iteration(s). Max iterations reached.",
          phase := some s.phase,
          metadata := some { iteration := some s.iteration,
                             maxIterations := some s.maxIterations } } : RalfreshLoopResult),
        ({ env with
           doc := none, subModes := false,
           trace := env.trace ++ [Event.clearState, Event.clearSubModes sid] } : Env),
        ?_, rfl, rfl, rfl, by simp [hph], rfl, rfl⟩
      simp [processRalfreshLoop, hread, hact, hph, clearRalfreshState,
        clearAllRalfreshSubModes]
  · intro env2 hinact
    rcases hr2 : readRalfreshState env2 with _ | s2
    · simp [processRalfreshLoop, hr2]
    · simp [processRalfreshLoop, hr2, hinact s2 hr2]

/-- A hand-written document that is active while in a terminal phase —
the only kind of instance that reaches the loop driver's purge branch. -/
def activeCompleteState : RalfreshState :=
  { sampleActiveState with phase := "complete" }

/-- Witness for C3 (amended) at concrete inputs: an active
terminal-phase instance is purged with a `shouldBlock = false` decision,
and an environment without a state file yields `null`. -/
theorem loop_driver_terminal_witness :
    (∃ r env', processRalfreshLoop (mkEnv activeCompleteState) none = (some r, env') ∧
      r.shouldBlock = false ∧ env'.doc = none) ∧
    processRalfreshLoop emptyEnv none = (none, emptyEnv) := by
  obtain ⟨⟨r, env', h1, h2, h3, h4, h5, h6, h7⟩, h8⟩ :=
    loop_driver_terminal (mkEnv activeCompleteState) activeCompleteState none
      (read_mkEnv activeCompleteState) rfl (Or.inl rfl)
  exact ⟨⟨r, env', h1, h2, h6⟩,
    h8 emptyEnv (fun s2 hs2 => by simp [readRalfreshState, emptyEnv] at hs2)⟩

lemma lookupPhase_map_const (m : List (String × RalfreshPhaseState)) (key : String)
    (c : RalfreshPhaseState) :
    lookupPhase (m.map fun (e : String × RalfreshPhaseState) => (e.1, c)) key =
      (lookupPhase m key).map fun _ => c := by
  induction m with
  | nil => rfl
  | cons e t ih =>
    obtain ⟨k, v⟩ := e
    by_cases hk : k = key <;> simp [lookupPhase, hk, ih]

lemma setPhase_map_const (m : List (String × RalfreshPhaseState)) (key : String)
    (c v : RalfreshPhaseState) :
    setPhase (m.map fun (e : String × RalfreshPhaseState) => (e.1, c)) key v =
      m.map fun (e : String × RalfreshPhaseState) =>
        (e.1, if e.1 = key then v else c) := by
  induction m with
  | nil => rfl
  | cons e t ih =>
    obtain ⟨k, vv⟩ := e
    by_cases hk : k = key <;> simp [setPhase, hk] <;>
      simpa [setPhase] using ih

/-- C4: for every persisted active instance below the iteration ceiling,
`incrementRalfreshIteration` increments `iteration` by one, resets every
phase record to pending (dropping prior timestamps) except `planning`
which becomes in-progress with a `startedAt` timestamp and is made the
current phase, invokes the sub-mode reaper for the session before
persisting (visible in the event trace), and leaves `prompt`,
`sessionId`, `learnings` and `issues` unchanged. -/
theorem increment_below_ceiling (env : Env) (s : RalfreshState) (sid : Option String)
    (now : String)
    (hread : readRalfreshState env = some s) (hact : s.active = true)
    (hit : s.iteration < s.maxIterations)
    (hpl : ∃ pp, lookupPhase s.phases "planning" = some pp) :
    ∃ s', incrementRalfreshIteration env sid now =
        (.ok (some s'), ({ env with
          doc := some (encodeState s'),
          subModes := false,
          trace := env.trace ++ [Event.clearSubModes sid, Event.writeState s'] } : Env)) ∧
      s'.iteration = s.iteration + 1 ∧
      s'.phase = "planning" ∧
      s'.phases = s.phases.map (fun (e : String × RalfreshPhaseState) => (e.1,
        if e.1 = "planning"
        then ({ status := "in_progress", startedAt := some now } : RalfreshPhaseState)
        else { status := "pending" })) ∧
      s'.prompt = s.prompt ∧ s'.sessionId = s.sessionId ∧
      s'.learnings = s.learnings ∧ s'.issues = s.issues ∧
      s'.active = s.active ∧ s'.maxIterations = s.maxIterations := by
  obtain ⟨pp, hpp⟩ := hpl
  have hnle : ¬ s.maxIterations ≤ s.iteration := not_le.mpr hit
  refine ⟨({ s with
      iteration := s.iteration + 1,
      phase := "planning",
      phases := s.phases.map (fun (e : String × RalfreshPhaseState) => (e.1,
        if e.1 = "planning"
        then ({ status := "in_progress", startedAt := some now } : RalfreshPhaseState)
        else { status := "pending" })) } : RalfreshState),
    ?_, rfl, rfl, rfl, rfl, rfl, rfl, rfl, rfl, rfl⟩
  simp [incrementRalfreshIteration, incrementCore, hread, hact, hnle,
    lookupPhase_map_const, hpp, setPhase_map_const, clearAllRalfreshSubModes,
    writeRalfreshState]

/-- Witness for C4 at a concrete input: from the sample active instance
(iteration 1 of 5) the increment yields iteration 2 in phase planning. -/
theorem increment_below_ceiling_witness :
    ∃ s', (incrementRalfreshIteration (mkEnv sampleActiveState)
        (some "session-1") "T2").1 = .ok (some s') ∧
      s'.iteration = sampleActiveState.iteration + 1 ∧ s'.phase = "planning" := by
  obtain ⟨s', heq, hit, hph, _⟩ := increment_below_ceiling (mkEnv sampleActiveState)
    sampleActiveState (some "session-1") "T2" (read_mkEnv sampleActiveState) rfl
    (by decide) ⟨{ status := "in_progress",
                   startedAt := some "2025-01-01T00:00:00.000Z" }, rfl⟩
  exact ⟨s', by rw [heq], hit, hph⟩

/-- The entry appended to `learnings` by `addRalfreshLearning env text`,
as read back from the persisted document. -/
def storedLearningEntry (env : Env) (text : String) : Option String :=
  (readRalfreshState (addRalfreshLearning env text).2).bind fun s => s.learnings.getLast?

/-- The entry appended to `issues` by `addRalfreshIssue env text`, as read
back from the persisted document. -/
def storedIssueEntry (env : Env) (text : String) : Option String :=
  (readRalfreshState (addRalfreshIssue env text).2).bind fun s => s.issues.getLast?

lemma addLearning_result (env : Env) (s : RalfreshState) (text : String)
    (hread : readRalfreshState env = some s) :
    readRalfreshState (addRalfreshLearning env text).2 =
      some { s with learnings :=
        if MAX_LEARNINGS < (s.learnings ++ [truncateEntry text]).length
        then lastNList MAX_LEARNINGS (s.learnings ++ [truncateEntry text])
        else s.learnings ++ [truncateEntry text] } := by
  simp [addRalfreshLearning, hread, addNotepadLearning, read_write]

lemma addIssue_result (env : Env) (s : RalfreshState) (text : String)
    (hread : readRalfreshState env = some s) :
    readRalfreshState (addRalfreshIssue env text).2 =
      some { s with issues :=
        if MAX_ISSUES < (s.issues ++ [truncateEntry text]).length
        then lastNList MAX_ISSUES (s.issues ++ [truncateEntry text])
        else s.issues ++ [truncateEntry text] } := by
  simp [addRalfreshIssue, hread, addNotepadIssue, read_write]

lemma getLast?_cap (n : Nat) (hn : 0 < n) (cur : List String) (e : String) :
    (if n < (cur ++ [e]).length then lastNList n (cur ++ [e])
     else cur ++ [e]).getLast? = some e := by
  split
  · rename_i h
    rw [lastNList, List.getLast?_drop]
    have hne : ¬ ((cur ++ [e]).length ≤ (cur ++ [e]).length - n) := by omega
    simp [hne, hn]
  · simp

lemma truncateEntry_long (text : String) (h : MAX_ENTRY_LENGTH < text.length) :
    (truncateEntry text).length = MAX_ENTRY_LENGTH ∧
      ∃ p, truncateEntry text = p ++ "..." := by
  rw [truncateEntry, if_pos h]
  refine ⟨?_, _, rfl⟩
  rw [String.length_append]
  have h1 : ((text.toList.take (MAX_ENTRY_LENGTH - 3)).asString).length =
      min (MAX_ENTRY_LENGTH - 3) text.length := by
    show (List.take (MAX_ENTRY_LENGTH - 3) text.toList).length =
      min (MAX_ENTRY_LENGTH - 3) text.length
    rw [List.length_take]
    rfl
  rw [h1]
  have h2 : ("..." : String).length = 3 := rfl
  rw [h2]
  simp only [MAX_ENTRY_LENGTH] at h ⊢
  omega

/-- C7: for every existing instance, a learning or issue text longer than
`MAX_ENTRY_LENGTH` is stored as an entry of length exactly
`MAX_ENTRY_LENGTH` ending in the truncation marker `...`, while a text of
length at most `MAX_ENTRY_LENGTH` is stored unmodified. -/
theorem entry_truncation (env : Env) (s : RalfreshState) (text : String)
    (hread : readRalfreshState env = some s) :
    (MAX_ENTRY_LENGTH < text.length →
      ∃ e, storedLearningEntry env text = some e ∧
        storedIssueEntry env text = some e ∧
        e.length = MAX_ENTRY_LENGTH ∧ ∃ p, e = p ++ "...") ∧
    (text.length ≤ MAX_ENTRY_LENGTH →
      storedLearningEntry env text = some text ∧
      storedIssueEntry env text = some text) := by
  have hL : storedLearningEntry env text = some (truncateEntry text) := by
    rw [storedLearningEntry, addLearning_result env s text hread]
    exact getLast?_cap MAX_LEARNINGS (by norm_num [MAX_LEARNINGS]) s.learnings
      (truncateEntry text)
  have hI : storedIssueEntry env text = some (truncateEntry text) := by
    rw [storedIssueEntry, addIssue_result env s text hread]
    exact getLast?_cap MAX_ISSUES (by norm_num [MAX_ISSUES]) s.issues
      (truncateEntry text)
  constructor
  · intro hlong
    obtain ⟨hlen, p, hp⟩ := truncateEntry_long text hlong
    exact ⟨truncateEntry text, hL, hI, hlen, p, hp⟩
  · intro hshort
    have htr : truncateEntry text = text := by
      rw [truncateEntry, if_neg (not_lt.mpr hshort)]
    rw [hL, hI, htr]
    exact ⟨rfl, rfl⟩

/-- A text one character longer than `MAX_ENTRY_LENGTH`. -/
def longEntryText : String := (List.replicate (MAX_ENTRY_LENGTH + 1) 'a').asString

/-- Witness for C7 at a concrete input: a 4097-character text is stored
as a 4096-character entry ending in the marker. -/
theorem entry_truncation_witness :
    ∃ e, storedLearningEntry (mkEnv sampleActiveState) longEntryText = some e ∧
      storedIssueEntry (mkEnv sampleActiveState) longEntryText = some e ∧
      e.length = MAX_ENTRY_LENGTH ∧ ∃ p, e = p ++ "..." :=
  (entry_truncation (mkEnv sampleActiveState) sampleActiveState longEntryText
    (read_mkEnv sampleActiveState)).1
    (by norm_num [longEntryText, MAX_ENTRY_LENGTH, List.asString, String.length])

/-- Adding a batch of learnings one call at a time, as the caller (and the
test suite) does. -/
def addLearningsMany (env : Env) (ts : List String) : Env :=
  ts.foldl (fun e t => (addRalfreshLearning e t).2) env

/-- Adding a batch of issues one call at a time. -/
def addIssuesMany (env : Env) (ts : List String) : Env :=
  ts.foldl (fun e t => (addRalfreshIssue e t).2) env

/-- The pure effect of the push-then-cap step of `addRalfreshLearning` /
`addRalfreshIssue`, iterated over a list of (already truncated) entries. -/
def capFold (n : Nat) (cur : List String) : List String → List String
  | [] => cur
  | e :: es =>
    capFold n (if n < (cur ++ [e]).length then lastNList n (cur ++ [e])
               else cur ++ [e]) es

lemma lastNList_of_le {α : Type} (n : Nat) (xs : List α) (h : xs.length ≤ n) :
    lastNList n xs = xs := by
  unfold lastNList
  rw [Nat.sub_eq_zero_of_le h, List.drop_zero]

lemma lastNList_length {α : Type} (n : Nat) (xs : List α) :
    (lastNList n xs).length = min n xs.length := by
  unfold lastNList
  rw [List.length_drop]
  omega

lemma cap_step (n : Nat) (cur : List String) (e : String) :
    (if n < (cur ++ [e]).length then lastNList n (cur ++ [e]) else cur ++ [e]) =
      lastNList n (cur ++ [e]) := by
  split
  · rfl
  · rename_i h
    exact (lastNList_of_le _ _ (not_lt.mp h)).symm

lemma lastN_lastN_append {α : Type} (n : Nat) (xs ys : List α) :
    lastNList n (lastNList n xs ++ ys) = lastNList n (xs ++ ys) := by
  rcases le_or_lt xs.length n with h | h
  · rw [lastNList_of_le n xs h]
  · show ((xs.drop (xs.length - n)) ++ ys).drop
        (((xs.drop (xs.length - n)) ++ ys).length - n) =
      (xs ++ ys).drop ((xs ++ ys).length - n)
    rw [List.length_append, List.length_append, List.length_drop]
    rw [show xs.length - (xs.length - n) + ys.length - n = ys.length by omega]
    rw [show xs.length + ys.length - n = (xs.length - n) + ys.length by omega]
    rw [← List.drop_drop]
    rw [List.drop_append_of_le_length (Nat.sub_le _ _)]

lemma lastN_append_right {α : Type} (n : Nat) (A B : List α) (h : n ≤ B.length) :
    lastNList n (A ++ B) = lastNList n B := by
  unfold lastNList
  rw [List.length_append]
  rw [show A.length + B.length - n = A.length + (B.length - n) by omega]
  rw [← List.drop_drop]
  rw [List.drop_left]

lemma capFold_eq (n : Nat) (es : List String) : ∀ cur : List String, cur.length ≤ n →
    capFold n cur es = lastNList n (cur ++ es) := by
  induction es with
  | nil =>
    intro cur h
    rw [capFold, List.append_nil, lastNList_of_le n cur h]
  | cons e es ih =>
    intro cur h
    rw [capFold, cap_step]
    rw [ih _ (by rw [lastNList_length]; omega)]
    rw [lastN_lastN_append, List.append_assoc]
    rfl

lemma addLearningsMany_spec (ts : List String) : ∀ (env : Env) (s : RalfreshState),
    readRalfreshState env = some s →
    ∃ s', readRalfreshState (addLearningsMany env ts) = some s' ∧
      s'.learnings = capFold MAX_LEARNINGS s.learnings (ts.map truncateEntry) ∧
      s'.issues = s.issues := by
  induction ts with
  | nil => exact fun env s h => ⟨s, h, rfl, rfl⟩
  | cons t ts ih =>
    intro env s h
    obtain ⟨s', h1, h2, h3⟩ := ih _ _ (addLearning_result env s t h)
    exact ⟨s', h1, by rw [h2]; rfl, by rw [h3]⟩

lemma addIssuesMany_spec (ts : List String) : ∀ (env : Env) (s : RalfreshState),
    readRalfreshState env = some s →
    ∃ s', readRalfreshState (addIssuesMany env ts) = some s' ∧
      s'.issues = capFold MAX_ISSUES s.issues (ts.map truncateEntry) ∧
      s'.learnings = s.learnings := by
  induction ts with
  | nil => exact fun env s h => ⟨s, h, rfl, rfl⟩
  | cons t ts ih =>
    intro env s h
    obtain ⟨s', h1, h2, h3⟩ := ih _ _ (addIssue_result env s t h)
    exact ⟨s', h1, by rw [h2]; rfl, by rw [h3]⟩

/-- C8: for every existing instance (within the documented bounds), after
adding `MAX_LEARNINGS + 10` learnings (resp. `MAX_ISSUES + 10` issues) one
call at a time, the stored sequence has exactly `MAX_LEARNINGS`
(resp. `MAX_ISSUES`) entries, namely the most recently added ones in
insertion order — the first ten (and any pre-existing entries) having been
evicted from the front. -/
theorem eviction_fifo (env : Env) (s : RalfreshState) (ts us : List String)
    (hread : readRalfreshState env = some s)
    (hsl : s.learnings.length ≤ MAX_LEARNINGS) (hsi : s.issues.length ≤ MAX_ISSUES)
    (hts : ts.length = MAX_LEARNINGS + 10) (hus : us.length = MAX_ISSUES + 10) :
    (∃ sL, readRalfreshState (addLearningsMany env ts) = some sL ∧
      sL.learnings = (ts.map truncateEntry).drop 10 ∧
      sL.learnings.length = MAX_LEARNINGS) ∧
    (∃ sI, readRalfreshState (addIssuesMany env us) = some sI ∧
      sI.issues = (us.map truncateEntry).drop 10 ∧
      sI.issues.length = MAX_ISSUES) := by
  constructor
  · obtain ⟨sL, h1, h2, h3⟩ := addLearningsMany_spec ts env s hread
    have hmap : (ts.map truncateEntry).length = MAX_LEARNINGS + 10 := by
      rw [List.length_map, hts]
    have hform : capFold MAX_LEARNINGS s.learnings (ts.map truncateEntry) =
        (ts.map truncateEntry).drop 10 := by
      rw [capFold_eq MAX_LEARNINGS _ _ hsl]
      rw [lastN_append_right _ _ _ (by omega)]
      unfold lastNList
      rw [hmap]
      congr 1
    refine ⟨sL, h1, by rw [h2, hform], ?_⟩
    rw [h2, hform, List.length_drop, hmap]
    omega
  · obtain ⟨sI, h1, h2, h3⟩ := addIssuesMany_spec us env s hread
    have hmap : (us.map truncateEntry).length = MAX_ISSUES + 10 := by
      rw [List.length_map, hus]
    have hform : capFold MAX_ISSUES s.issues (us.map truncateEntry) =
        (us.map truncateEntry).drop 10 := by
      rw [capFold_eq MAX_ISSUES _ _ hsi]
      rw [lastN_append_right _ _ _ (by omega)]
      unfold lastNList
      rw [hmap]
      congr 1
    refine ⟨sI, h1, by rw [h2, hform], ?_⟩
    rw [h2, hform, List.length_drop, hmap]
    omega

/-- Witness for C8 at concrete inputs: 110 learnings and 110 issues added
to the sample instance leave exactly 100, the last 100 added. -/
theorem eviction_fifo_witness :
    (∃ sL, readRalfreshState (addLearningsMany (mkEnv sampleActiveState)
        (List.replicate (MAX_LEARNINGS + 10) "x")) = some sL ∧
      sL.learnings =
        ((List.replicate (MAX_LEARNINGS + 10) "x").map truncateEntry).drop 10 ∧
      sL.learnings.length = MAX_LEARNINGS) ∧
    (∃ sI, readRalfreshState (addIssuesMany (mkEnv sampleActiveState)
        (List.replicate (MAX_ISSUES + 10) "y")) = some sI ∧
      sI.issues =
        ((List.replicate (MAX_ISSUES + 10) "y").map truncateEntry).drop 10 ∧
      sI.issues.length = MAX_ISSUES) :=
  eviction_fifo (mkEnv sampleActiveState) sampleActiveState
    (List.replicate (MAX_LEARNINGS + 10) "x") (List.replicate (MAX_ISSUES + 10) "y")
    (read_mkEnv sampleActiveState) (by simp [sampleActiveState])
    (by simp [sampleActiveState]) (by simp) (by simp)

/-- C9: with the mutual-exclusion registry allowing the start,
`initRalfresh` accepts a prompt of length exactly `MAX_PROMPT_LENGTH`,
creating and persisting an instance whose prompt equals the input; any
prompt strictly longer is rejected (`null`, registry answer irrelevant)
with the environment — hence the store — unchanged. -/
theorem init_prompt_bound (env : Env) (prompt : String) (sid : Option String)
    (cfg : Option RalfreshConfig) (now : String) :
    (prompt.length = MAX_PROMPT_LENGTH →
      ∃ st env', initRalfresh env prompt sid cfg true now = (some st, env') ∧
        st.prompt = prompt ∧ env'.doc = some (encodeState st) ∧
        readRalfreshState env' = some st) ∧
    (MAX_PROMPT_LENGTH < prompt.length →
      ∀ allowed, initRalfresh env prompt sid cfg allowed now = (none, env)) := by
  constructor
  · intro hlen
    have hnlt : ¬ MAX_PROMPT_LENGTH < prompt.length := by omega
    rw [initRalfresh, if_neg hnlt]
    dsimp only
    exact ⟨_, _, rfl, rfl, rfl, read_write _ _⟩
  · intro hlt allowed
    rw [initRalfresh, if_pos hlt]

/-- A prompt of length exactly `MAX_PROMPT_LENGTH`. -/
def maxLenPrompt : String := (List.replicate MAX_PROMPT_LENGTH 'x').asString

/-- A prompt one character over the cap. -/
def overLenPrompt : String := (List.replicate (MAX_PROMPT_LENGTH + 1) 'x').asString

/-- Witness for C9 at concrete inputs: the 32768-character prompt is
accepted and persisted; the 32769-character one is rejected with nothing
persisted. -/
theorem init_prompt_bound_witness :
    (∃ st env', initRalfresh emptyEnv maxLenPrompt none none true "T" = (some st, env') ∧
      st.prompt = maxLenPrompt ∧ env'.doc = some (encodeState st) ∧
      readRalfreshState env' = some st) ∧
    initRalfresh emptyEnv overLenPrompt none none true "T" = (none, emptyEnv) := by
  have hmax : maxLenPrompt.length = MAX_PROMPT_LENGTH := by
    show (List.replicate MAX_PROMPT_LENGTH 'x').length = MAX_PROMPT_LENGTH
    rw [List.length_replicate]
  have hover : MAX_PROMPT_LENGTH < overLenPrompt.length := by
    show MAX_PROMPT_LENGTH < (List.replicate (MAX_PROMPT_LENGTH + 1) 'x').length
    rw [List.length_replicate]
    omega
  exact ⟨(init_prompt_bound emptyEnv maxLenPrompt none none "T").1 hmax,
    (init_prompt_bound emptyEnv overLenPrompt none none "T").2 hover true⟩

lemma init_some_inv {env : Env} {prompt : String} {sid : Option String}
    {cfg : Option RalfreshConfig} {allowed : Bool} {now : String}
    {s : RalfreshState} {env' : Env}
    (h : initRalfresh env prompt sid cfg allowed now = (some s, env')) :
    s.active = true ∧ s.completedAt = none ∧
      (s.phase = "planning" ∨ s.phase = "execution") := by
  rw [initRalfresh] at h
  split at h
  · simp at h
  · split at h
    · simp at h
    · dsimp only at h
      injection h with h1 h2
      injection h1 with h1e
      subst h1e
      refine ⟨rfl, rfl, ?_⟩
      by_cases hb : ((cfg.bind fun c => c.skipPlanning).getD false) = true
      · right; simp [hb]
      · left; simp [hb]

/-- The states the lifecycle itself can produce: a freshly initialized
instance, closed under the persisted results of phase transitions,
iteration increments and wisdom additions. -/
inductive ProducedState : RalfreshState → Prop where
  | init (env : Env) (prompt : String) (sid : Option String)
      (cfg : Option RalfreshConfig) (allowed : Bool) (now : String)
      (s : RalfreshState) (env' : Env)
      (heq : initRalfresh env prompt sid cfg allowed now = (some s, env')) :
      ProducedState s
  | trans (s : RalfreshState) (q now : String) (s' : RalfreshState)
      (hprod : ProducedState s)
      (heq : (transitionRalfreshPhase (mkEnv s) q now).1 = .ok (some s')) :
      ProducedState s'
  | incr (s : RalfreshState) (sid : Option String) (now : String) (s' : RalfreshState)
      (hprod : ProducedState s)
      (heq : (incrementRalfreshIteration (mkEnv s) sid now).1 = .ok (some s')) :
      ProducedState s'
  | learn (s : RalfreshState) (t : String) (s' : RalfreshState) (hprod : ProducedState s)
      (heq : readRalfreshState (addRalfreshLearning (mkEnv s) t).2 = some s') :
      ProducedState s'
  | issue (s : RalfreshState) (t : String) (s' : RalfreshState) (hprod : ProducedState s)
      (heq : readRalfreshState (addRalfreshIssue (mkEnv s) t).2 = some s') :
      ProducedState s'

/-- C5: every state produced by the lifecycle operations, starting from a
freshly initialized instance, satisfies `active = false` iff the phase is
terminal (`complete` or `failed`) and `completedAt` is set. -/
theorem active_iff_terminal_invariant (s : RalfreshState) (h : ProducedState s) :
    (s.active = false ↔
      ((s.phase = "complete" ∨ s.phase = "failed") ∧ s.completedAt ≠ none)) := by
  induction h with
  | init env prompt sid cfg allowed now s env' heq =>
    obtain ⟨ha, hc, hph⟩ := init_some_inv heq
    simp [ha, hc]
  | trans s q now s' hprod heq ih =>
    obtain ⟨s0, hr0, ha0, hph, hit, hmx, hpr, hsid, hlrn, hiss, hterm, hnterm⟩ :=
      transition_ok_some_inv heq
    rw [read_mkEnv] at hr0
    injection hr0 with h0e
    subst h0e
    by_cases hq : q = "complete" ∨ q = "failed"
    · obtain ⟨haf, hcf⟩ := hterm hq
      rw [haf, hcf, hph]
      exact ⟨fun _ => ⟨hq, by simp⟩, fun _ => rfl⟩
    · obtain ⟨haf, hcf⟩ := hnterm hq
      rw [haf, ha0, hph]
      simp [hq]
  | incr s sid now s' hprod heq ih =>
    obtain ⟨s0, hr0, ha0, hcase⟩ := increment_ok_some_inv heq
    rw [read_mkEnv] at hr0
    injection hr0 with h0e
    subst h0e
    rcases hcase with ⟨_, hph, haf, _, hcf⟩ | ⟨_, hph, haf, _⟩
    · rw [haf, hcf, hph]
      exact ⟨fun _ => ⟨Or.inr rfl, by simp⟩, fun _ => rfl⟩
    · rw [haf, ha0, hph]
      simp
  | learn s t s' hprod heq ih =>
    rw [addLearning_result (mkEnv s) s t (read_mkEnv s)] at heq
    injection heq with h2e
    subst h2e
    simpa using ih
  | issue s t s' hprod heq ih =>
    rw [addIssue_result (mkEnv s) s t (read_mkEnv s)] at heq
    injection heq with h2e
    subst h2e
    simpa using ih

/-- The concrete instance `initRalfresh` creates for prompt `"t"` at time
`2025-01-01T00:00:00.000Z` in an empty environment. -/
def initWitnessState : RalfreshState := {
  active := true,
  iteration := 1,
  maxIterations := 5,
  phase := "planning",
  prompt := "t",
  startedAt := "2025-01-01T00:00:00.000Z",
  completedAt := none,
  sessionId := none,
  notepadName := "ralfresh-2025-01-01T00-00-00",
  phases :=
    [("planning", { status := "in_progress", startedAt := some "2025-01-01T00:00:00.000Z" }),
     ("execution", { status := "pending" }),
     ("review", { status := "pending" }),
     ("assess", { status := "pending" }),
     ("complete", { status := "pending" }),
     ("failed", { status := "pending" })],
  learnings := [],
  issues := [],
  linkedModes := [] }

/-- Witness for C5 at a concrete produced state: the invariant holds for
the freshly initialized instance. -/
theorem active_iff_terminal_invariant_witness :
    initWitnessState.active = false ↔
      ((initWitnessState.phase = "complete" ∨ initWitnessState.phase = "failed") ∧
        initWitnessState.completedAt ≠ none) :=
  active_iff_terminal_invariant initWitnessState
    (ProducedState.init emptyEnv "t" none none true "2025-01-01T00:00:00.000Z"
      initWitnessState _ rfl)
